import Mathlib

/-!
Verification of the crash-safety guard of the `pglite-kill-dash-9` repository:
a shallow embedding in Lean 4 of the directory-lock manager and
partial-initialization detector (`packages/pglite/src/fs/nodefs.ts`) and of the
crash-injection test harness (`packages/pglite/tests/crash-safety/harness.js`),
with theorems settling the specification's claims about them.
-/

namespace PGliteGuard

/-! ## Process liveness probe and lock acquisition (`nodefs.ts`)

`#isProcessAlive(pid)` calls `process.kill(pid, 0)` and returns `true` when no
exception is raised, `false` on any exception.  We model the outcome of
`process.kill(pid, 0)` as an environment function returning `none` on success
and `some err` when an exception is raised. -/

/-- Exceptions `process.kill(pid, 0)` may raise: `ESRCH` (no such process),
`EPERM` (process exists but belongs to another user), or anything else. -/
inductive KillErr where
  | esrch
  | eperm
  | other
  deriving DecidableEq, Repr

/-- The ambient system state seen by `#acquireLock`: the content of the sibling
lock-marker file (`none` when the file does not exist), the outcome of
`process.kill(pid, 0)` for each pid, the resolved data-directory path
(`this.rootDir`), the caller's `process.pid` and `Date.now()`. -/
structure LockSys where
  rootDir : String
  lockFileContent : Option String
  kill0 : Int → Option KillErr
  selfPid : Nat
  now : Nat

/-- Model of `#isProcessAlive(pid)`: `true` iff `process.kill(pid, 0)` raises nothing. -/
def isProcessAlive (sys : LockSys) (pid : Int) : Bool :=
  (sys.kill0 pid).isNone

/-- JavaScript `String.prototype.trim` on one side: drop leading whitespace
characters. -/
def jsTrimLeft : List Char → List Char
  | [] => []
  | c :: cs => if c.isWhitespace then jsTrimLeft cs else c :: cs

/-- JavaScript `String.prototype.trim`: drop whitespace from both ends. -/
def jsTrim (cs : List Char) : List Char :=
  (jsTrimLeft (jsTrimLeft cs).reverse).reverse

/-- Accumulate the value of the leading decimal digits, stopping at the first
non-digit (as JavaScript `parseInt` does with trailing garbage). -/
def parseDigits (acc : Nat) : List Char → Nat
  | [] => acc
  | c :: cs => if c.isDigit then parseDigits (acc * 10 + (c.toNat - 48)) cs else acc

/-- JavaScript `parseInt(s, 10)`: skip leading whitespace, take an optional
sign and the longest prefix of decimal digits; `none` models `NaN` (no digit
found). -/
def jsParseInt10 (s : List Char) : Option Int :=
  match jsTrimLeft s with
  | [] => none
  | '-' :: c :: rest =>
      if c.isDigit then some (-(parseDigits 0 (c :: rest) : Int)) else none
  | '+' :: c :: rest =>
      if c.isDigit then some ((parseDigits 0 (c :: rest) : Int)) else none
  | c :: rest =>
      if c.isDigit then some ((parseDigits 0 (c :: rest) : Int)) else none

/-- The pid `#acquireLock` extracts from a lock-file content:
`content.trim().split('\n')[0]` fed to `parseInt(_, 10)`.  The first element
returned by `split('\n')` is the longest prefix free of `'\n'`. -/
def jsLockPid (content : String) : Option Int :=
  jsParseInt10 ((jsTrim content.data).takeWhile (fun c => c ≠ '\n'))

/-- Payload of the lock-held error thrown by `#acquireLock` (its message names
the holder's pid). -/
structure LockHeld where
  holderPid : Int
  deriving DecidableEq, Repr

/-- Result of a successful `#acquireLock`: the marker path written, the entire
new content of the marker file (`openSync(_, 'w')` truncates, so the record is
the sole content), and whether the file descriptor is left open. -/
structure AcquireOk where
  lockPath : String
  content : String
  fdOpen : Bool
  deriving DecidableEq, Repr

/-- The record `#acquireLock` writes: `` `${process.pid}\n${Date.now()}\n` ``. -/
def lockRecord (sys : LockSys) : String :=
  toString sys.selfPid ++ "\n" ++ toString sys.now ++ "\n"

/-- The fresh marker state produced by a successful `#acquireLock`. -/
def freshRecord (sys : LockSys) : AcquireOk :=
  { lockPath := sys.rootDir ++ ".lock"
    content := lockRecord sys
    fdOpen := true }

/-- The pid guard of `#acquireLock` (`nodefs.ts` lines 58–86): if the marker
file exists, read it, trim, split on newlines, `parseInt` the first line;
`some pid` exactly when the pid is truthy (non-zero, not `NaN`) and passes
the liveness probe — the condition `pid && !isNaN(pid) &&
this.#isProcessAlive(pid)` guarding the throw. -/
def heldPid (sys : LockSys) : Option Int :=
  match sys.lockFileContent with
  | none => none
  | some content =>
      match jsLockPid content with
      | none => none
      | some pid =>
          if pid ≠ 0 ∧ isProcessAlive sys pid then some pid else none

/-- The branch taken by `#acquireLock`: throw when a truthy, live pid was read
from an existing marker, otherwise write the fresh record. -/
def acquireLock (sys : LockSys) : Except LockHeld AcquireOk :=
  match heldPid sys with
  | some pid => .error ⟨pid⟩
  | none => .ok (freshRecord sys)

/-! Sanity checks on concrete inputs. -/

example :
    acquireLock
      { rootDir := "/tmp/db", lockFileContent := some "123\n99\n",
        kill0 := fun p => if p = 123 then none else some .esrch,
        selfPid := 7, now := 42 } = .error ⟨123⟩ := rfl

example :
    acquireLock
      { rootDir := "/tmp/db", lockFileContent := some "123\n99\n",
        kill0 := fun _ => some .esrch, selfPid := 7, now := 42 }
      = .ok ⟨"/tmp/db.lock", "7\n42\n", true⟩ := rfl

example :
    acquireLock
      { rootDir := "/tmp/db", lockFileContent := some "garbage",
        kill0 := fun _ => none, selfPid := 7, now := 42 }
      = .ok ⟨"/tmp/db.lock", "7\n42\n", true⟩ := rfl

/-! ### Helper lemmas about `heldPid` and `acquireLock` -/

theorem heldPid_eq_some (sys : LockSys) (p : Int) :
    heldPid sys = some p ↔
      ∃ c, sys.lockFileContent = some c ∧ jsLockPid c = some p ∧ p ≠ 0 ∧
        isProcessAlive sys p = true := by
  unfold heldPid
  cases hc : sys.lockFileContent with
  | none => simp [hc]
  | some c =>
      simp only [hc, Option.some.injEq]
      cases hp : jsLockPid c with
      | none => simp [hp]
      | some q =>
          simp only
          split
          next hcond =>
            simp only [Option.some.injEq]
            constructor
            · rintro rfl
              exact ⟨c, rfl, hp, hcond.1, hcond.2⟩
            · rintro ⟨c', hc', hpid, _, _⟩
              cases hc'
              rw [hp] at hpid
              exact Option.some.inj hpid
          next hcond =>
            constructor
            · intro h
              exact Option.noConfusion h
            · rintro ⟨c', hc', hpid, hne, halive⟩
              cases hc'
              rw [hp] at hpid
              cases Option.some.inj hpid
              exact absurd ⟨hne, halive⟩ hcond

theorem acquire_error_iff (sys : LockSys) (p : Int) :
    acquireLock sys = .error ⟨p⟩ ↔ heldPid sys = some p := by
  unfold acquireLock
  cases h : heldPid sys with
  | none => simp
  | some q =>
      simp only [Except.error.injEq, Option.some.injEq, LockHeld.mk.injEq]

theorem acquire_ok_of_heldPid_none (sys : LockSys) (h : heldPid sys = none) :
    acquireLock sys = .ok (freshRecord sys) := by
  unfold acquireLock
  rw [h]

theorem acquire_ok_of_not_alive (sys : LockSys) (c : String) (p : Int)
    (hc : sys.lockFileContent = some c) (hp : jsLockPid c = some p)
    (ha : isProcessAlive sys p = false) :
    acquireLock sys = .ok (freshRecord sys) := by
  apply acquire_ok_of_heldPid_none
  cases hh : heldPid sys with
  | none => rfl
  | some q =>
      obtain ⟨c', hc', hq, _, halive⟩ := (heldPid_eq_some sys q).mp hh
      rw [hc] at hc'
      cases hc'
      rw [hp] at hq
      cases hq
      rw [ha] at halive
      cases halive

theorem acquire_ok_of_unparsable (sys : LockSys) (c : String)
    (hc : sys.lockFileContent = some c) (hp : jsLockPid c = none) :
    acquireLock sys = .ok (freshRecord sys) := by
  apply acquire_ok_of_heldPid_none
  cases hh : heldPid sys with
  | none => rfl
  | some q =>
      obtain ⟨c', hc', hq, _, _⟩ := (heldPid_eq_some sys q).mp hh
      rw [hc] at hc'
      cases hc'
      rw [hp] at hq
      cases hq

/-! ### Claims about the lock manager -/

/-- C1: `acquire` fails with a lock-held error naming pid `p` iff the marker
file exists and its first line parses to the truthy pid `p` which passes the
liveness probe; when the record's owner is dead, or the record is unparsable,
`acquire` succeeds and overwrites the record with the caller's own pid. -/
theorem acquire_lockheld_characterization (sys : LockSys) :
    (∀ p : Int, acquireLock sys = .error ⟨p⟩ ↔
        ∃ c, sys.lockFileContent = some c ∧ jsLockPid c = some p ∧ p ≠ 0 ∧
          isProcessAlive sys p = true)
    ∧ (∀ c p, sys.lockFileContent = some c → jsLockPid c = some p →
        isProcessAlive sys p = false → acquireLock sys = .ok (freshRecord sys))
    ∧ (∀ c, sys.lockFileContent = some c → jsLockPid c = none →
        acquireLock sys = .ok (freshRecord sys)) := by
  refine ⟨fun p => ?_, acquire_ok_of_not_alive sys, acquire_ok_of_unparsable sys⟩
  exact (acquire_error_iff sys p).trans (heldPid_eq_some sys p)

def c1sysAlive : LockSys :=
  { rootDir := "/d", lockFileContent := some "55\n1\n",
    kill0 := fun _ => none, selfPid := 9, now := 3 }

def c1sysDead : LockSys :=
  { rootDir := "/d", lockFileContent := some "55\n1\n",
    kill0 := fun _ => some .esrch, selfPid := 9, now := 3 }

def c1sysBad : LockSys :=
  { rootDir := "/d", lockFileContent := some "zzz",
    kill0 := fun _ => none, selfPid := 9, now := 3 }

/-- Witness for C1 at concrete states: a live holder is refused, a dead
holder and a corrupt record are overwritten. -/
theorem acquire_lockheld_characterization_witness :
    acquireLock c1sysAlive = .error ⟨55⟩
    ∧ acquireLock c1sysDead = .ok (freshRecord c1sysDead)
    ∧ acquireLock c1sysBad = .ok (freshRecord c1sysBad) := by
  refine ⟨?_, ?_, ?_⟩
  · exact ((acquire_lockheld_characterization c1sysAlive).1 55).mpr
      ⟨"55\n1\n", rfl, by decide, by decide, rfl⟩
  · exact (acquire_lockheld_characterization c1sysDead).2.1 "55\n1\n" 55 rfl
      (by decide) rfl
  · exact (acquire_lockheld_characterization c1sysBad).2.2 "zzz" rfl (by decide)

/-- C9: the liveness probe returns `true` exactly when `process.kill(pid, 0)`
raises no exception and `false` on any exception, `EPERM` included; hence a
lock whose live foreign-owned holder makes the probe raise `EPERM` is treated
as dead and its record is overwritten, with no lock-held error. -/
theorem isProcessAlive_characterization (sys : LockSys) (pid : Int) :
    (isProcessAlive sys pid = true ↔ sys.kill0 pid = none)
    ∧ (∀ e, sys.kill0 pid = some e → isProcessAlive sys pid = false)
    ∧ (∀ c p, sys.lockFileContent = some c → jsLockPid c = some p →
        sys.kill0 p = some KillErr.eperm →
        acquireLock sys = .ok (freshRecord sys)) := by
  refine ⟨?_, fun e he => ?_, fun c p hc hp hk => ?_⟩
  · unfold isProcessAlive
    exact Option.isNone_iff_eq_none
  · unfold isProcessAlive
    rw [he]
    rfl
  · exact acquire_ok_of_not_alive sys c p hc hp (by unfold isProcessAlive; rw [hk]; rfl)

def c9sys : LockSys :=
  { rootDir := "/d", lockFileContent := some "77\n5\n",
    kill0 := fun _ => some .eperm, selfPid := 8, now := 4 }

/-- Witness for C9: a holder pid whose existence check raises `EPERM` is
classified dead and the lock is taken over. -/
theorem isProcessAlive_characterization_witness :
    isProcessAlive c9sys 77 = false
    ∧ acquireLock c9sys = .ok (freshRecord c9sys) := by
  refine ⟨(isProcessAlive_characterization c9sys 77).2.1 KillErr.eperm rfl, ?_⟩
  exact (isProcessAlive_characterization c9sys 77).2.2 "77\n5\n" 77 rfl (by decide) rfl

/-- C7: on every successful `acquire`, the record written is exactly
`` `${pid}\n${timestamp}\n` ``, it is the sole content of the marker file at
path `rootDir ++ ".lock"` — a sibling of the data directory, neither the
directory itself nor any path inside it — and the file descriptor is left
open. -/
theorem acquire_record_shape (sys : LockSys) (r : AcquireOk)
    (h : acquireLock sys = .ok r) :
    r.content = toString sys.selfPid ++ "\n" ++ toString sys.now ++ "\n"
    ∧ r.lockPath = sys.rootDir ++ ".lock"
    ∧ r.lockPath ≠ sys.rootDir
    ∧ (∀ rest : String, r.lockPath ≠ sys.rootDir ++ "/" ++ rest)
    ∧ r.fdOpen = true := by
  have hr : r = freshRecord sys := by
    unfold acquireLock at h
    cases hh : heldPid sys with
    | none =>
        rw [hh] at h
        exact (Except.ok.inj h).symm
    | some q =>
        rw [hh] at h
        exact Except.noConfusion h
  subst hr
  refine ⟨rfl, rfl, ?_, ?_, rfl⟩
  · intro heq
    simp only [freshRecord] at heq
    have hl := congrArg String.length heq
    rw [String.length_append] at hl
    have h5 : (".lock" : String).length = 5 := rfl
    rw [h5] at hl
    omega
  · intro rest heq
    simp only [freshRecord] at heq
    have hd := congrArg String.data heq
    simp only [String.data_append, List.append_assoc] at hd
    have h2 := List.append_cancel_left hd
    simp at h2

def c7sys : LockSys :=
  { rootDir := "/tmp/db", lockFileContent := none,
    kill0 := fun _ => none, selfPid := 7, now := 42 }

/-- Witness for C7 at a concrete acquisition. -/
theorem acquire_record_shape_witness :
    acquireLock c7sys = .ok (freshRecord c7sys)
    ∧ (freshRecord c7sys).content = "7\n42\n"
    ∧ (freshRecord c7sys).lockPath = "/tmp/db.lock"
    ∧ (freshRecord c7sys).fdOpen = true := by
  have h := acquire_record_shape c7sys (freshRecord c7sys) rfl
  refine ⟨rfl, ?_, rfl, h.2.2.2.2⟩
  rw [h.1]
  rfl

/-! ## Partial-initialization detector (`nodefs.ts` `#cleanPartialInit`,
`#moveDataDirToBackup`)

The detector only performs the filesystem reads `readdirSync(rootDir)`,
`existsSync(rootDir/PG_VERSION)`, `existsSync(rootDir/base)` and
`readdirSync(rootDir/base)`; we record their outcomes as fields of an
abstract directory state.  `readFail` (resp. `baseReadFail`) models the
corresponding `readdirSync` throwing, which the surrounding `try` swallows. -/

structure DirState where
  readFail : Bool
  entries : List String
  pgVersionExists : Bool
  baseExists : Bool
  baseReadFail : Bool
  baseEntries : List String
  deriving DecidableEq, Repr

/-- What a run of `#cleanPartialInit` does to the directory. -/
inductive InitAction where
  | noAction
  | quarantine
  deriving DecidableEq, Repr

/-- Model of `#cleanPartialInit` (`nodefs.ts` lines 106–148): return silently on an
empty directory; quarantine when `PG_VERSION` is missing; when it is present,
quarantine when `base/` is missing or holds fewer than three entries; any
`readdirSync` exception is caught and suppresses all further action. -/
def cleanPartialInit (d : DirState) : InitAction :=
  if d.readFail then .noAction
  else if d.entries.isEmpty then .noAction
  else if !d.pgVersionExists then .quarantine
  else if d.baseExists then
    if d.baseReadFail then .noAction
    else if d.baseEntries.length < 3 then .quarantine
    else .noAction
  else .quarantine

/-- The state of the fresh empty directory `#moveDataDirToBackup` creates at
the original path after renaming the old directory away. -/
def freshDir : DirState :=
  { readFail := false, entries := [], pgVersionExists := false,
    baseExists := false, baseReadFail := false, baseEntries := [] }

/-- Model of `#cleanPartialInit` together with the effect of `#moveDataDirToBackup`:
returns the directory state left at the original path and, when a quarantine
happened, the state moved to the timestamped backup path. -/
def checkAndQuarantine (d : DirState) : DirState × Option DirState :=
  match cleanPartialInit d with
  | .noAction => (d, none)
  | .quarantine => (freshDir, some d)

/-- C2: `checkAndQuarantine` takes no action on an empty directory;
quarantines exactly when the directory is non-empty and the version marker is
missing, or the marker is present and `base/` is missing or readable with
fewer than three children; leaves a marker-bearing directory with at least
three `base/` children untouched; and a second run on an already-valid
directory again produces no backup. -/
theorem checkAndQuarantine_characterization (d : DirState)
    (hr : d.readFail = false) (hbr : d.baseReadFail = false) :
    (d.entries = [] → checkAndQuarantine d = (d, none))
    ∧ (d.entries ≠ [] → d.pgVersionExists = false →
        checkAndQuarantine d = (freshDir, some d))
    ∧ (d.entries ≠ [] → d.pgVersionExists = true →
        (d.baseExists = false ∨ d.baseEntries.length < 3) →
        checkAndQuarantine d = (freshDir, some d))
    ∧ (d.pgVersionExists = true → d.baseExists = true →
        3 ≤ d.baseEntries.length →
        checkAndQuarantine d = (d, none)
        ∧ checkAndQuarantine (checkAndQuarantine d).1 = (d, none)) := by
  obtain ⟨rf, es, pv, be, brf, bes⟩ := d
  subst hr
  subst hbr
  refine ⟨fun he => ?_, fun hne hpv => ?_, fun hne hpv hb => ?_, fun hpv hbe hlen => ?_⟩
  · subst he
    rfl
  · subst hpv
    cases es with
    | nil => exact absurd rfl hne
    | cons e es' => rfl
  · subst hpv
    cases es with
    | nil => exact absurd rfl hne
    | cons e es' =>
        rcases hb with hb | hb
        · subst hb
          rfl
        · cases be with
          | false => rfl
          | true => simp [checkAndQuarantine, cleanPartialInit, hb]
  · subst hpv
    subst hbe
    have hnl : ¬ bes.length < 3 := Nat.not_lt.mpr hlen
    cases es with
    | nil => exact ⟨rfl, rfl⟩
    | cons e es' =>
        have h1 : checkAndQuarantine
            ⟨false, e :: es', true, true, false, bes⟩
            = (⟨false, e :: es', true, true, false, bes⟩, none) := by
          simp [checkAndQuarantine, cleanPartialInit, hnl]
        refine ⟨h1, ?_⟩
        rw [h1]
        exact h1

def c2valid : DirState :=
  { readFail := false, entries := ["PG_VERSION", "base", "global"],
    pgVersionExists := true, baseExists := true, baseReadFail := false,
    baseEntries := ["1", "4", "5"] }

def c2aborted : DirState :=
  { readFail := false, entries := ["postgresql.conf"],
    pgVersionExists := false, baseExists := false, baseReadFail := false,
    baseEntries := [] }

/-- Witness for C2: a fully initialized directory is untouched twice over; a
directory without the version marker is quarantined. -/
theorem checkAndQuarantine_characterization_witness :
    checkAndQuarantine c2valid = (c2valid, none)
    ∧ checkAndQuarantine (checkAndQuarantine c2valid).1 = (c2valid, none)
    ∧ checkAndQuarantine c2aborted = (freshDir, some c2aborted) := by
  have h := checkAndQuarantine_characterization c2valid rfl rfl
  have h4 := h.2.2.2 rfl rfl (by decide)
  refine ⟨h4.1, h4.2, ?_⟩
  exact (checkAndQuarantine_characterization c2aborted rfl rfl).2.1
    (by decide) rfl

/-! ## Crash-injection harness (`harness.js` `crashTest`)

`crashTest` installs event handlers on the forked child: a `message` handler
(kill-on-trigger), an optional kill timer (only when `killOnMessage` is not
set), a 30-second safety timer, and an `exit` handler.  Node runs these
handlers one at a time, so a run is a sequence of handler activations; we
model it as a fold of a step function over a list of events. -/

/-- The scenario options that matter to the kill logic: `killOnMessage`
(`none` models the default `null`) and the configured `signal`. -/
structure CrashCfg where
  killOnMessage : Option String
  signal : String
  deriving DecidableEq, Repr

/-- One handler activation: a worker message arriving, the `killAfterMs`
timer firing, the 30 s safety timer firing, or the process exit event with
its code and signal. -/
inductive HEvent where
  | message (msg : String)
  | killTimerFires
  | safetyTimerFires
  | exited (code : Option Int) (sig : Option String)
  deriving DecidableEq, Repr

/-- The mutable coordinator state of one `crashTest` run: the `killed` flag,
whether the kill timer is pending (`killTimer` non-null and not cleared), the
accumulated `messages`, every signal dispatched through `child.kill` in
order, and the exit information once the exit event fired. -/
structure CrashState where
  killed : Bool
  killTimerActive : Bool
  messages : List String
  killsSent : List String
  exited : Option (Option Int × Option String)
  deriving DecidableEq, Repr

/-- State when `crashTest` has installed its handlers: nothing killed, the
kill timer started only when no message trigger is configured. -/
def initState (cfg : CrashCfg) : CrashState :=
  { killed := false
    killTimerActive := cfg.killOnMessage.isNone
    messages := []
    killsSent := []
    exited := none }

/-- One handler activation of `crashTest` (`harness.js` lines 93–137):
the `message` handler pushes the message and, when it equals
`killOnMessage` and `killed` is still false, sets `killed`, clears the kill
timer and sends `signal`; the kill timer sends `signal` unless already
killed; the safety timer sends `'SIGKILL'` **only when `killed` is still
false**; the exit handler clears the kill timer and records code and signal.
Events reaching a settled run (exit already fired) are ignored. -/
def hstep (cfg : CrashCfg) (s : CrashState) : HEvent → CrashState
  | .message m =>
      if s.exited.isSome then s
      else
        let s' := { s with messages := s.messages ++ [m] }
        match cfg.killOnMessage with
        | some trigger =>
            if m = trigger ∧ s.killed = false then
              { s' with killed := true, killTimerActive := false,
                        killsSent := s.killsSent ++ [cfg.signal] }
            else s'
        | none => s'
  | .killTimerFires =>
      if s.exited.isSome then s
      else if s.killTimerActive then
        if s.killed = false then
          { s with killed := true, killTimerActive := false,
                   killsSent := s.killsSent ++ [cfg.signal] }
        else { s with killTimerActive := false }
      else s
  | .safetyTimerFires =>
      if s.exited.isSome then s
      else if s.killed = false then
        { s with killed := true, killsSent := s.killsSent ++ ["SIGKILL"] }
      else s
  | .exited code sig =>
      if s.exited.isSome then s
      else { s with exited := some (code, sig), killTimerActive := false }

/-- A whole `crashTest` run over a sequence of handler activations. -/
def runCrash (cfg : CrashCfg) (es : List HEvent) : CrashState :=
  es.foldl (hstep cfg) (initState cfg)

/-- The resolved value of the `crashTest` promise, built by the exit handler:
`workerKilled: sig === signal || killed`, plus the recorded exit code,
signal and transcript. -/
structure CrashResult where
  workerKilled : Bool
  workerExitCode : Option Int
  workerSignal : Option String
  workerMessages : List String
  deriving DecidableEq, Repr

/-- The promise resolution, available once the exit event has fired. -/
def crashResult (cfg : CrashCfg) (s : CrashState) : Option CrashResult :=
  s.exited.map fun cs =>
    { workerKilled := (cs.2 == some cfg.signal) || s.killed
      workerExitCode := cs.1
      workerSignal := cs.2
      workerMessages := s.messages }

/-! ## Verification pipeline (`harness.js` `tryOpen`, `verifyIntegrity`)

`verifyIntegrity` issues queries against an open handle; we record the
outcome of each query the function can issue as an environment: `none`
models a query that succeeds, `some msg` one that throws with message
`msg`. -/

structure DbEnv where
  /-- Outcome of `SELECT 1 as health_check`. -/
  basic : Option String
  /-- Outcome of the `pg_tables` listing: the table names, or the error. -/
  tables : Except String (List String)
  /-- Outcome of `SELECT count(*)` on a given table. -/
  countErr : String → Option String
  /-- Outcome of the `pg_indexes` listing: `(indexname, tablename)` pairs. -/
  indexes : Except String (List (String × String))
  /-- Outcome of the per-index query over the owning table. -/
  indexErr : String → String → Option String

structure IntegrityReport where
  intact : Bool
  issues : List String
  deriving DecidableEq, Repr

/-- Issues appended by the table layer: one per failing count, or the single
listing-failure issue when the `pg_tables` query itself throws. -/
def tableLayerIssues (env : DbEnv) : List String :=
  match env.tables with
  | .error e => ["Table listing failed: " ++ e]
  | .ok ts => ts.filterMap fun t =>
      (env.countErr t).map fun e => "Count on " ++ t ++ " failed: " ++ e

/-- Issues appended by the index layer: one per failing per-index query, or
the single listing-failure issue when the `pg_indexes` query throws. -/
def indexLayerIssues (env : DbEnv) : List String :=
  match env.indexes with
  | .error e => ["Index listing failed: " ++ e]
  | .ok idxs => idxs.filterMap fun p =>
      (env.indexErr p.1 p.2).map fun e =>
        "Index check on " ++ p.1 ++ " failed: " ++ e

/-- Model of `verifyIntegrity` (`harness.js` lines 176–228): when the basic query
throws, `return { intact: false, issues }` fires immediately with that single
issue; otherwise the table layer and then the index layer run, each pushing
one issue per failure and continuing, and the report is
`{ intact: issues.length === 0, issues }`. -/
def verifyIntegrity (env : DbEnv) : IntegrityReport :=
  match env.basic with
  | some e => { intact := false, issues := ["Basic query failed: " ++ e] }
  | none =>
      let issues := tableLayerIssues env ++ indexLayerIssues env
      { intact := issues.isEmpty, issues := issues }

def c3env : DbEnv :=
  { basic := some "boom"
    tables := .ok ["t"]
    countErr := fun _ => some "bad"
    indexes := .ok []
    indexErr := fun _ _ => none }

/-- Counterexample to C3 as stated: with the baseline query failing and a
user table whose count query also fails, the report carries only the
baseline issue — the table layer's failing check contributes nothing, so the
table and index layers are *not* still attempted after a baseline failure. -/
theorem verifyIntegrity_not_layered_after_baseline :
    c3env.basic = some "boom"
    ∧ c3env.tables = .ok ["t"]
    ∧ c3env.countErr "t" = some "bad"
    ∧ (verifyIntegrity c3env).issues = ["Basic query failed: boom"]
    ∧ "Count on t failed: bad" ∉ (verifyIntegrity c3env).issues := by
  refine ⟨rfl, rfl, rfl, rfl, ?_⟩
  decide

/-- C3 (amended): `verifyIntegrity` returns immediately with `intact = false`
and the single baseline issue when the baseline query fails; when the
baseline succeeds it attempts both remaining layers, appending one issue per
failing check and continuing past failures; and `intact = true` iff the
issues sequence is empty. -/
theorem verifyIntegrity_characterization (env : DbEnv) :
    (∀ e, env.basic = some e →
        verifyIntegrity env =
          { intact := false, issues := ["Basic query failed: " ++ e] })
    ∧ (env.basic = none →
        (verifyIntegrity env).issues =
          tableLayerIssues env ++ indexLayerIssues env)
    ∧ ((verifyIntegrity env).intact = true ↔ (verifyIntegrity env).issues = []) := by
  refine ⟨fun e he => ?_, fun hn => ?_, ?_⟩
  · simp [verifyIntegrity, he]
  · simp [verifyIntegrity, hn]
  · cases hb : env.basic with
    | some e =>
        simp [verifyIntegrity, hb]
    | none =>
        simp only [verifyIntegrity, hb]
        exact List.isEmpty_iff

def c3okenv : DbEnv :=
  { basic := none
    tables := .ok ["a", "b"]
    countErr := fun t => if t = "a" then some "broken" else none
    indexes := .ok [("i", "a")]
    indexErr := fun _ _ => some "idx broken"
    }

/-- Witness for C3 (amended) at concrete environments: the early return on a
baseline failure, and the two-layer issue list when the baseline passes. -/
theorem verifyIntegrity_characterization_witness :
    verifyIntegrity c3env =
      { intact := false, issues := ["Basic query failed: boom"] }
    ∧ (verifyIntegrity c3okenv).issues =
        tableLayerIssues c3okenv ++ indexLayerIssues c3okenv := by
  exact ⟨(verifyIntegrity_characterization c3env).1 "boom" rfl,
    (verifyIntegrity_characterization c3okenv).2.1 rfl⟩

/-- Which of the racing promises in `tryOpen` settles first: `waitReady`
resolves within `timeoutMs`, `waitReady` rejects (or the constructor throws)
within `timeoutMs`, or nothing settles within `timeoutMs` and the timeout
rejection wins the race. -/
inductive OpenBehavior where
  | readyWithin
  | failsWithin (msg : String)
  | notWithin
  deriving DecidableEq, Repr

/-- The record `tryOpen` returns: `{ success, db, error }`. -/
structure TryOpenResult where
  success : Bool
  db : Option Unit
  error : Option String
  deriving DecidableEq, Repr

/-- The timeout rejection's message:
`` `PGlite open timed out after ${timeoutMs}ms (likely corrupted)` ``. -/
def timeoutMsg (timeoutMs : Nat) : String :=
  "PGlite open timed out after " ++ toString timeoutMs ++ "ms (likely corrupted)"

/-- Model of `tryOpen` (`harness.js` lines 148–170): return
`{ success: true, db, error: null }` when `waitReady` wins the race, and on
any caught rejection — the open's own or the timeout's —
`{ success: false, db: null, error: err }`. -/
def tryOpen (b : OpenBehavior) (timeoutMs : Nat) : TryOpenResult :=
  match b with
  | .readyWithin => { success := true, db := some (), error := none }
  | .failsWithin m => { success := false, db := none, error := some m }
  | .notWithin =>
      { success := false, db := none, error := some (timeoutMsg timeoutMs) }

/-- C6: `tryOpen` succeeds exactly when the open becomes ready within the
timeout; when it does not, the result is `success = false` with a null
handle and the distinguishing timeout error — never success — and the
timeout result differs from every clean open failure whose message is not
the timeout message. -/
theorem tryOpen_timeout_characterization (b : OpenBehavior) (timeoutMs : Nat) :
    ((tryOpen b timeoutMs).success = true ↔ b = .readyWithin)
    ∧ (b = .notWithin →
        tryOpen b timeoutMs =
          { success := false, db := none, error := some (timeoutMsg timeoutMs) })
    ∧ (∀ m, b = .failsWithin m →
        tryOpen b timeoutMs = { success := false, db := none, error := some m })
    ∧ (∀ m, m ≠ timeoutMsg timeoutMs →
        tryOpen (.failsWithin m) timeoutMs ≠ tryOpen .notWithin timeoutMs) := by
  refine ⟨?_, fun hb => ?_, fun m hb => ?_, fun m hm heq => ?_⟩
  · cases b <;> simp [tryOpen]
  · subst hb
    rfl
  · subst hb
    rfl
  · simp only [tryOpen, TryOpenResult.mk.injEq, Option.some.injEq] at heq
    exact hm heq.2.2

/-- Witness for C6 at the default 15000 ms timeout. -/
theorem tryOpen_timeout_characterization_witness :
    tryOpen .notWithin 15000 =
      { success := false, db := none,
        error := some "PGlite open timed out after 15000ms (likely corrupted)" }
    ∧ tryOpen (.failsWithin "boot error") 15000 ≠ tryOpen .notWithin 15000 := by
  constructor
  · rw [(tryOpen_timeout_characterization .notWithin 15000).2.1 rfl]
    rfl
  · exact (tryOpen_timeout_characterization .notWithin 15000).2.2.2 "boot error"
      (by decide)

/-! ## Corruption classifier

Modelled from the spec: the repository's `src/` contains no
CorruptionClassifier implementation (spec §4.6 and the C8 claim describe it
with no code location; only `tryOpen` and `verifyIntegrity` exist in
`harness.js`), so the classifier below follows the spec's words. -/

/-- Modelled from the spec: the classifier's label taxonomy (spec §4.6). -/
inductive CorruptionLabel where
  | OPEN_FAILURE
  | INTEGRITY_FAILURE
  | DATA_INCONSISTENCY
  | WRITE_FAILURE
  | NONE
  deriving DecidableEq, Repr

/-- Modelled from the spec: the facts of a ScenarioResult the classifier
reads — whether `tryOpen` succeeded (a timeout counts as failure), whether
the integrity report was intact, whether the cross-checks passed, and
whether the post-recovery write probe passed. -/
structure ScenarioOutcome where
  openOk : Bool
  intact : Bool
  crossChecksOk : Bool
  writeProbeOk : Bool
  deriving DecidableEq, Repr

/-- Modelled from the spec: the pure classifier of §4.6 — `OPEN_FAILURE` if
`tryOpen` failed or timed out; `INTEGRITY_FAILURE` if it succeeded but the
report is not intact; `DATA_INCONSISTENCY` if integrity passed but a
cross-check failed; `WRITE_FAILURE` if only the write probe failed; `NONE`
otherwise; every applicable label is returned. -/
def classify (r : ScenarioOutcome) : List CorruptionLabel :=
  let ls :=
    (if r.openOk = false then [CorruptionLabel.OPEN_FAILURE] else [])
    ++ (if r.openOk = true ∧ r.intact = false then
          [CorruptionLabel.INTEGRITY_FAILURE] else [])
    ++ (if r.intact = true ∧ r.crossChecksOk = false then
          [CorruptionLabel.DATA_INCONSISTENCY] else [])
    ++ (if r.openOk = true ∧ r.intact = true ∧ r.crossChecksOk = true ∧
          r.writeProbeOk = false then
          [CorruptionLabel.WRITE_FAILURE] else [])
  if ls = [] then [CorruptionLabel.NONE] else ls

/-- C8: membership in the classifier's output is exactly the spec's condition
for each label, every applicable label is present, and `NONE` appears exactly
when no failure label applies. -/
theorem classify_characterization (r : ScenarioOutcome) :
    (CorruptionLabel.OPEN_FAILURE ∈ classify r ↔ r.openOk = false)
    ∧ (CorruptionLabel.INTEGRITY_FAILURE ∈ classify r ↔
        r.openOk = true ∧ r.intact = false)
    ∧ (CorruptionLabel.DATA_INCONSISTENCY ∈ classify r ↔
        r.intact = true ∧ r.crossChecksOk = false)
    ∧ (CorruptionLabel.WRITE_FAILURE ∈ classify r ↔
        r.openOk = true ∧ r.intact = true ∧ r.crossChecksOk = true ∧
          r.writeProbeOk = false)
    ∧ (CorruptionLabel.NONE ∈ classify r ↔
        classify r = [CorruptionLabel.NONE]) := by
  obtain ⟨o, i, c, w⟩ := r
  cases o <;> cases i <;> cases c <;> cases w <;> decide

/-! ### Temporal properties of `crashTest` -/

/-- The worker messages carried by a sequence of handler activations, in
arrival order. -/
def msgsOf (es : List HEvent) : List String :=
  es.filterMap fun e =>
    match e with
    | .message m => some m
    | _ => none

/-- Invariant of a message-triggered run: before exit, the kill timer is
never pending, and the signal has been sent exactly once iff some arrived
message equals the trigger. -/
theorem runCrash_onMessage_inv (cfg : CrashCfg) (t : String)
    (ht : cfg.killOnMessage = some t) :
    ∀ (es : List HEvent) (s : CrashState),
      (∀ e ∈ es, e = HEvent.killTimerFires ∨ ∃ m, e = HEvent.message m) →
      s.exited = none →
      s.killTimerActive = false →
      s.killed = decide (t ∈ s.messages) →
      s.killsSent = (if t ∈ s.messages then [cfg.signal] else []) →
      (es.foldl (hstep cfg) s).messages = s.messages ++ msgsOf es
      ∧ (es.foldl (hstep cfg) s).killed
          = decide (t ∈ (es.foldl (hstep cfg) s).messages)
      ∧ (es.foldl (hstep cfg) s).killsSent =
          (if t ∈ (es.foldl (hstep cfg) s).messages then [cfg.signal] else []) := by
  intro es
  induction es with
  | nil =>
      intro s _ _ _ hk hks
      exact ⟨by simp [msgsOf], hk, hks⟩
  | cons e es' ih =>
      intro s hes hex hkt hk hks
      have hes' : ∀ e' ∈ es',
          e' = HEvent.killTimerFires ∨ ∃ m, e' = HEvent.message m :=
        fun e' he' => hes e' (List.mem_cons_of_mem _ he')
      have hex' : s.exited.isSome = false := by rw [hex]; rfl
      rcases hes e (List.mem_cons_self e es') with he | ⟨m, he⟩
      · subst he
        have hstep_eq : hstep cfg s HEvent.killTimerFires = s := by
          simp [hstep, hex', hkt]
        rw [List.foldl_cons, hstep_eq]
        have h := ih s hes' hex hkt hk hks
        simpa [msgsOf] using h
      · subst he
        rw [List.foldl_cons]
        by_cases hm : m = t
        · have hm' : t = m := hm.symm
          subst hm'
          by_cases hk0 : s.killed = true
          · -- a second matching message after the kill: transcript only
            have hdec : decide (t ∈ s.messages) = true := by rw [← hk, hk0]
            have htm : t ∈ s.messages := of_decide_eq_true hdec
            have hstep_eq : hstep cfg s (HEvent.message t) =
                { s with messages := s.messages ++ [t] } := by
              simp [hstep, hex', ht, hk0]
            rw [hstep_eq]
            have h := ih { s with messages := s.messages ++ [t] } hes' hex hkt
              (by
                show s.killed = decide (t ∈ s.messages ++ [t])
                rw [hk0]
                exact (decide_eq_true (by simp)).symm)
              (by
                show s.killsSent = if t ∈ s.messages ++ [t] then [cfg.signal] else []
                rw [hks, if_pos htm, if_pos (by simp : t ∈ s.messages ++ [t])])
            refine ⟨?_, h.2.1, h.2.2⟩
            rw [h.1]
            simp [msgsOf, List.append_assoc]
          · -- the first matching message: the one and only kill
            have hkf : s.killed = false := by
              revert hk0
              cases s.killed <;> simp
            have htnm : t ∉ s.messages := by
              rw [hkf] at hk
              exact of_decide_eq_false hk.symm
            have hstep_eq : hstep cfg s (HEvent.message t) =
                { s with messages := s.messages ++ [t], killed := true,
                         killTimerActive := false,
                         killsSent := s.killsSent ++ [cfg.signal] } := by
              simp [hstep, hex', ht, hkf]
            rw [hstep_eq]
            have h := ih
              { s with messages := s.messages ++ [t], killed := true,
                       killTimerActive := false,
                       killsSent := s.killsSent ++ [cfg.signal] } hes' hex rfl
              (by
                show true = decide (t ∈ s.messages ++ [t])
                exact (decide_eq_true (by simp)).symm)
              (by
                show s.killsSent ++ [cfg.signal]
                    = if t ∈ s.messages ++ [t] then [cfg.signal] else []
                rw [hks, if_neg htnm, if_pos (by simp : t ∈ s.messages ++ [t])]
                rfl)
            refine ⟨?_, h.2.1, h.2.2⟩
            rw [h.1]
            simp [msgsOf, List.append_assoc]
        · -- a non-matching message: transcript only
          have hmem : (t ∈ s.messages ++ [m]) ↔ t ∈ s.messages := by
            simp [List.mem_append, List.mem_singleton, Ne.symm hm]
          have hstep_eq : hstep cfg s (HEvent.message m) =
              { s with messages := s.messages ++ [m] } := by
            simp [hstep, hex', ht, hm]
          rw [hstep_eq]
          have h := ih { s with messages := s.messages ++ [m] } hes' hex hkt
            (by
              show s.killed = decide (t ∈ s.messages ++ [m])
              rw [hk]
              exact (decide_eq_decide.mpr hmem).symm)
            (by
              show s.killsSent = if t ∈ s.messages ++ [m] then [cfg.signal] else []
              rw [hks]
              exact (if_congr hmem rfl rfl).symm)
          refine ⟨?_, h.2.1, h.2.2⟩
          rw [h.1]
          simp [msgsOf, List.append_assoc]

/-- C5: in a message-triggered run, at every point of the run the signal has
been dispatched exactly once if a message equal to the trigger has arrived,
and not at all before — so the kill happens after, and only after, the first
matching message, and neither a later matching message nor a kill timer
causes a second kill. -/
theorem killOnMessage_kill_timing (cfg : CrashCfg) (t : String)
    (ht : cfg.killOnMessage = some t) (es : List HEvent)
    (hes : ∀ e ∈ es, e = HEvent.killTimerFires ∨ ∃ m, e = HEvent.message m)
    (n : Nat) :
    (runCrash cfg (es.take n)).messages = msgsOf (es.take n)
    ∧ (runCrash cfg (es.take n)).killsSent =
        (if t ∈ msgsOf (es.take n) then [cfg.signal] else []) := by
  have hkt0 : (initState cfg).killTimerActive = false := by
    simp [initState, ht]
  have h := runCrash_onMessage_inv cfg t ht (es.take n) (initState cfg)
    (fun e he => hes e (List.take_subset n es he))
    rfl hkt0 rfl rfl
  have hm : (runCrash cfg (es.take n)).messages = msgsOf (es.take n) := by
    have := h.1
    simpa [runCrash, initState] using this
  refine ⟨hm, ?_⟩
  have := h.2.2
  rw [runCrash] at hm ⊢
  rw [this, hm]

def c5cfg : CrashCfg := { killOnMessage := some "go", signal := "SIGTERM" }

def c5trace : List HEvent :=
  [HEvent.message "x", HEvent.message "go", HEvent.message "go",
   HEvent.killTimerFires]

/-- Witness for C5: two matching messages and a timer event still produce a
single dispatched signal, and the prefix before the first match produced
none. -/
theorem killOnMessage_kill_timing_witness :
    (runCrash c5cfg (c5trace.take 1)).killsSent = []
    ∧ (runCrash c5cfg (c5trace.take 4)).killsSent = ["SIGTERM"] := by
  have hes : ∀ e ∈ c5trace,
      e = HEvent.killTimerFires ∨ ∃ m, e = HEvent.message m := by
    intro e he
    fin_cases he
    · exact Or.inr ⟨"x", rfl⟩
    · exact Or.inr ⟨"go", rfl⟩
    · exact Or.inr ⟨"go", rfl⟩
    · exact Or.inl rfl
  constructor
  · have h := (killOnMessage_kill_timing c5cfg "go" rfl c5trace hes 1).2
    rw [h]
    decide
  · have h := (killOnMessage_kill_timing c5cfg "go" rfl c5trace hes 4).2
    rw [h]
    decide

/-- The kill flag is set exactly when some signal has been dispatched:
`killed` is made `true` precisely at the three `child.kill` sites. -/
theorem runCrash_killed_iff_killsSent (cfg : CrashCfg) :
    ∀ (es : List HEvent) (s : CrashState),
      s.killed = !s.killsSent.isEmpty →
      (es.foldl (hstep cfg) s).killed
        = !(es.foldl (hstep cfg) s).killsSent.isEmpty := by
  intro es
  induction es with
  | nil => intro s h; exact h
  | cons e es' ih =>
      intro s h
      rw [List.foldl_cons]
      apply ih
      cases e with
      | message m =>
          simp only [hstep]
          split
          · exact h
          · cases hko : cfg.killOnMessage with
            | none => exact h
            | some trigger =>
                simp only
                split
                · simp
                · exact h
      | killTimerFires =>
          simp only [hstep]
          split
          · exact h
          · split
            · split
              · simp
              · exact h
            · exact h
      | safetyTimerFires =>
          simp only [hstep]
          split
          · exact h
          · split
            · simp
            · exact h
      | exited code sig =>
          simp only [hstep]
          split
          · exact h
          · exact h

/-- C10: the result's `workerKilled` is `(sig === signal) || killed`, i.e.
true exactly when the harness dispatched some kill (message trigger, delay
timer or safety timeout — the only writers of `killsSent`) or the observed
exit signal equals the requested one; a worker that exits on its own before
any kill yields `workerKilled = false` with its exit code recorded. -/
theorem workerKilled_characterization (cfg : CrashCfg) (es : List HEvent)
    (code : Option Int) (sig : Option String)
    (hpre : (runCrash cfg es).exited = none) :
    crashResult cfg (runCrash cfg (es ++ [HEvent.exited code sig])) = some
      { workerKilled :=
          (sig == some cfg.signal) || !(runCrash cfg es).killsSent.isEmpty
        workerExitCode := code
        workerSignal := sig
        workerMessages := (runCrash cfg es).messages }
    ∧ ((runCrash cfg es).killsSent = [] → sig = none →
        crashResult cfg (runCrash cfg (es ++ [HEvent.exited code sig])) = some
          { workerKilled := false, workerExitCode := code, workerSignal := sig,
            workerMessages := (runCrash cfg es).messages }) := by
  have hkilled : (runCrash cfg es).killed
      = !(runCrash cfg es).killsSent.isEmpty :=
    runCrash_killed_iff_killsSent cfg es (initState cfg) rfl
  have hrun : runCrash cfg (es ++ [HEvent.exited code sig])
      = hstep cfg (runCrash cfg es) (HEvent.exited code sig) := by
    rw [runCrash, List.foldl_append]
    rfl
  rw [hrun]
  rcases hS : runCrash cfg es with ⟨k, kt, ms, ks, ex⟩
  rw [hS] at hkilled hpre
  have hex : ex = none := hpre
  subst hex
  have hk : k = !ks.isEmpty := hkilled
  subst hk
  constructor
  · rfl
  · intro hks hsig
    subst hsig
    have hks' : ks = [] := hks
    subst hks'
    rfl

def c10cfg : CrashCfg := { killOnMessage := some "go", signal := "SIGKILL" }

def c10trace : List HEvent := [HEvent.message "starting"]

/-- Witness for C10: a worker that sends one non-matching message and then
exits cleanly on its own is reported with `workerKilled = false` and its
exit code. -/
theorem workerKilled_characterization_witness :
    crashResult c10cfg
        (runCrash c10cfg (c10trace ++ [HEvent.exited (some 0) none])) = some
      { workerKilled := false, workerExitCode := some 0, workerSignal := none,
        workerMessages := ["starting"] } := by
  have h := (workerKilled_characterization c10cfg c10trace (some 0) none rfl).2
    rfl rfl
  rw [h]
  rfl

/-! ### The safety timeout (C4) -/

def c4cfg : CrashCfg := { killOnMessage := some "ready", signal := "SIGTERM" }

def c4trace : List HEvent := [HEvent.message "ready", HEvent.safetyTimerFires]

/-- C4 fails on the code: with a catchable configured signal, once the
message trigger has sent `SIGTERM` the `killed` flag is set, so when the
safety timer fires against a worker that survived the signal (still alive —
no exit event) the guarded body sends nothing: no `SIGKILL` is ever
dispatched, contradicting the claim (and the code's own comment
"kill after 30s no matter what"). -/
theorem safetyTimeout_skipped_after_weak_kill :
    (runCrash c4cfg c4trace).killsSent = ["SIGTERM"]
    ∧ (runCrash c4cfg c4trace).exited = none
    ∧ "SIGKILL" ∉ (runCrash c4cfg c4trace).killsSent := by
  refine ⟨rfl, rfl, ?_⟩
  decide

end PGliteGuard
